import Mathlib

/-!
Verification of the anchor CSR-admission validators
(`src/anchor/validators/custom.py`) against their specification.

The validators themselves are translated directly from the Python source.
Repository helpers that live outside the provided source tree
(`anchor.validators.utils`, the name tables of `anchor.X509.extension`) are
modelled from the specification, each marked `Modelled from the spec:` in its
doc comment.  External collaborators (`netaddr` address/network parsing,
`pyasn1` object identifiers) are modelled concretely so that every definition
is executable.
-/

namespace Anchor

/-! ## Character-list string utilities (executable models of Python `str` ops) -/

/-- Split a character list on a separator, Python `str.split(sep)` semantics:
splitting the empty string yields one empty part. -/
def chSplit (sep : Char) : List Char → List (List Char)
  | [] => [[]]
  | c :: cs =>
    if c = sep then [] :: chSplit sep cs
    else
      match chSplit sep cs with
      | [] => [[c]]
      | g :: gs => (c :: g) :: gs

/-- Python `s.split(sep)` for a one-character separator. -/
def strSplit (s : String) (sep : Char) : List String :=
  (chSplit sep s.data).map (fun l => ⟨l⟩)

/-- Python `s.endswith(suffix)`. -/
def strEndsWith (s suf : String) : Bool :=
  suf.data.isSuffixOf s.data

/-- Decimal digit value of a character, `none` for non-digits. -/
def chDigit (c : Char) : Option Nat :=
  if c.isDigit then some (c.toNat - 48) else none

/-- Parse a non-empty all-decimal-digit character list. -/
def parseDecAux : List Char → Nat → Option Nat
  | [], acc => some acc
  | c :: cs, acc =>
    match chDigit c with
    | some d => parseDecAux cs (acc * 10 + d)
    | none => none

/-- Parse a non-empty decimal numeral string. -/
def parseDec (s : String) : Option Nat :=
  match s.data with
  | [] => none
  | l => parseDecAux l 0

/-! ## External collaborator models: netaddr addresses and networks -/

/-- Modelled from the spec: the external `netaddr.IPAddress` parser
(an out-of-scope collaborator, §6 `parseAddress`); IPv4 dotted-quad form,
returning the 32-bit integer value, `none` when the string is not an
address (the `AddrFormatError` case). -/
def parseIPv4 (s : String) : Option Nat :=
  match (strSplit s '.').mapM parseDec with
  | some [a, b, c, d] =>
    if a ≤ 255 ∧ b ≤ 255 ∧ c ≤ 255 ∧ d ≤ 255 then
      some (((a * 256 + b) * 256 + c) * 256 + d)
    else none
  | _ => none

/-- An IP network: base address value and mask length. -/
structure Network where
  base : Nat
  maskLen : Nat
deriving DecidableEq, Repr

/-- Membership of an address in a network (`addr in net` on netaddr values):
the address agrees with the base on the first `maskLen` bits. -/
def Network.containsAddr (n : Network) (addr : Nat) : Bool :=
  addr / 2 ^ (32 - n.maskLen) = n.base / 2 ^ (32 - n.maskLen)

/-- Modelled from the spec: the external `netaddr.IPNetwork` parser
(§6 `parseNetwork`): `a.b.c.d/len` or a bare address (mask length 32);
`none` is the `AddrFormatError` case. -/
def parseCIDR (s : String) : Option Network :=
  match strSplit s '/' with
  | [a] => (parseIPv4 a).map (fun ip => ⟨ip, 32⟩)
  | [a, p] =>
    match parseIPv4 a, parseDec p with
    | some ip, some len => if len ≤ 32 then some ⟨ip, len⟩ else none
    | _, _ => none
  | _ => none

/-! ## Data model (spec §3): CSR, extensions, errors, outcomes -/

/-- A subjectAltName entry: (type, value), type is e.g. `"DNS"` or
`"IP Address"`. -/
abbrev SanEntry := String × String

/-- Object identifier, a dotted sequence of arcs. -/
abbrev OID := List Nat

/-- An X.509 extension of the CSR, the tagged variant of spec §3. -/
inductive Ext where
  | subjectAltName (entries : List SanEntry)
  | basicConstraints (ca : Bool)
  | keyUsage (usages : List String)
  | extendedKeyUsage (usages : List OID)
  | other (name : String) (oid : String)
deriving DecidableEq, Repr

/-- The registered short name of an extension (`ext.get_name()`). -/
def Ext.getName : Ext → String
  | .subjectAltName _ => "subjectAltName"
  | .basicConstraints _ => "basicConstraints"
  | .keyUsage _ => "keyUsage"
  | .extendedKeyUsage _ => "extendedKeyUsage"
  | .other n _ => n

/-- A parsed certificate signing request: the values of its CommonName
subject entries in order (`get_subject().get_entries_by_oid(OID_commonName)`)
and its extension list (`get_extensions()`). -/
structure CSR where
  cns : List String
  exts : List Ext
deriving DecidableEq, Repr

/-- The distinct `ValidationError` raise sites of the validators; each
constructor stands for one Python message, carrying its formatted data. -/
inductive VErr where
  | tooManyCN
  | noSubjectIdentity
  | noCN
  | networkNotAllowed (cn : String)
  | domainNotAllowed (name : String)
  | unexpectedAltNameType (t : String)
  | keyUsageNotAllowed (denied : List String)
  | unknownUsage (u : String)
  | extKeyUsageNotAllowed (denied : List String)
  | caNotAllowed
  | keyUsageCAMismatch (certSign crlSign : Bool)
  | caFlagsRequired
  | invalidCIDRConfig (cidr : String)
  | sourceNotAllowed
  | groupMismatch
deriving DecidableEq, Repr

/-- Result of running one validator: normal return, a raised
`ValidationError`, or an uncaught non-`ValidationError` exception
(Python `TypeError` and the like). -/
inductive Outcome where
  | ok
  | vErr (e : VErr)
  | crash (msg : String)
deriving DecidableEq, Repr

/-! ## Extraction helpers and matching primitives
(`anchor.validators.utils`, not in the provided source tree) -/

/-- Modelled from the spec: `utils.check_domains` / `DomainMatch` (§4.1):
true iff the name equals an allowed suffix or ends with `"." ++ suffix`
(suffix match anchored at a label boundary); the empty list matches
nothing; matching is case-sensitive (the implementer's documented choice). -/
def check_domains (domain : String) (allowed : List String) : Bool :=
  allowed.any (fun d => domain == d || strEndsWith domain ("." ++ d))

/-- Modelled from the spec: `utils.check_networks` / `NetworkContains`
(§4.1): true iff the address falls inside some CIDR of the list; a CIDR the
parser rejects contains nothing. -/
def check_networks (ip : Nat) (allowedNetworks : List String) : Bool :=
  allowedNetworks.any (fun s =>
    match parseCIDR s with
    | some n => n.containsAddr ip
    | none => false)

/-- Modelled from the spec: `utils.csr_require_cn` / `RequireSingleCN`
(§4.2): the single CommonName entry; `TooManyCN` when more than one is
present, `NoCN` when none is. -/
def csr_require_cn (csr : CSR) : Except VErr String :=
  match csr.cns with
  | [cn] => .ok cn
  | [] => .error .noCN
  | _ => .error .tooManyCN

/-- All subjectAltName entries of the CSR, in extension order. -/
def sanEntries (csr : CSR) : List SanEntry :=
  csr.exts.foldr
    (fun e acc =>
      match e with
      | .subjectAltName es => es ++ acc
      | _ => acc)
    []

/-- Modelled from the spec: `utils.iter_alternative_names` /
`AlternativeNames` (§4.2) with `failOnOtherTypes = false`: the
subjectAltName entries whose type is wanted, entries of other types
skipped (§4.4: "Other SAN types are ignored"). -/
def iter_alternative_names (csr : CSR) (types : List String) : List SanEntry :=
  (sanEntries csr).filter (fun e => types.contains e.1)

/-! ## Key-usage name tables (`anchor.X509.extension`, not in the provided
source tree) -/

/-- Modelled from the spec: `extension.LONG_KEY_USAGE_NAMES`, mapping the
long human-readable key-usage names to the canonical flag vocabulary of
§3 (`digitalSignature`, `keyCertSign`, ...). -/
def LONG_KEY_USAGE_NAMES : List (String × String) :=
  [("Digital Signature", "digitalSignature"),
   ("Non Repudiation", "nonRepudiation"),
   ("Key Encipherment", "keyEncipherment"),
   ("Data Encipherment", "dataEncipherment"),
   ("Key Agreement", "keyAgreement"),
   ("Certificate Sign", "keyCertSign"),
   ("CRL Sign", "cRLSign"),
   ("Encipher Only", "encipherOnly"),
   ("Decipher Only", "decipherOnly")]

/-- `LONG_KEY_USAGE_NAMES.get(x, x)`: normalize one allowed-usage name. -/
def normalizeKU (x : String) : String :=
  (LONG_KEY_USAGE_NAMES.lookup x).getD x

/-- Modelled from the spec: `extension.EXT_KEY_USAGE_NAMES_INV`, long
extended-key-usage names to OIDs. -/
def EXT_KEY_USAGE_NAMES_INV : List (String × OID) :=
  [("TLS Web Server Authentication", [1, 3, 6, 1, 5, 5, 7, 3, 1]),
   ("TLS Web Client Authentication", [1, 3, 6, 1, 5, 5, 7, 3, 2]),
   ("Code Signing", [1, 3, 6, 1, 5, 5, 7, 3, 3]),
   ("E-mail Protection", [1, 3, 6, 1, 5, 5, 7, 3, 4]),
   ("Time Stamping", [1, 3, 6, 1, 5, 5, 7, 3, 8]),
   ("OCSP Signing", [1, 3, 6, 1, 5, 5, 7, 3, 9])]

/-- Modelled from the spec: `extension.EXT_KEY_USAGE_SHORT_NAMES_INV`,
short extended-key-usage names to OIDs. -/
def EXT_KEY_USAGE_SHORT_NAMES_INV : List (String × OID) :=
  [("serverAuth", [1, 3, 6, 1, 5, 5, 7, 3, 1]),
   ("clientAuth", [1, 3, 6, 1, 5, 5, 7, 3, 2]),
   ("codeSigning", [1, 3, 6, 1, 5, 5, 7, 3, 3]),
   ("emailProtection", [1, 3, 6, 1, 5, 5, 7, 3, 4]),
   ("timeStamping", [1, 3, 6, 1, 5, 5, 7, 3, 8]),
   ("ocspSigning", [1, 3, 6, 1, 5, 5, 7, 3, 9])]

/-- Modelled from the spec: `extension.EXT_KEY_USAGE_SHORT_NAMES`, OIDs
back to short names. -/
def EXT_KEY_USAGE_SHORT_NAMES : List (OID × String) :=
  EXT_KEY_USAGE_SHORT_NAMES_INV.map (fun p => (p.2, p.1))

/-- Modelled from the spec: the external `pyasn1` `ObjectIdentifier`
constructor on a string: dotted-decimal literal syntax, `none` when the
string is not of that form. -/
def parseOID (s : String) : Option OID :=
  (strSplit s '.').mapM parseDec

/-! ## Validators (`anchor/validators/custom.py`) -/

/-- The `common_name` validator. -/
def common_name (csr : CSR) (allowed_domains : List String := [])
    (allowed_networks : List String := []) : Outcome :=
  let alt_present := csr.exts.any (fun e => e.getName == "subjectAltName")
  let CNs := csr.cns
  if CNs.length > 1 then .vErr .tooManyCN
  else if CNs.length == 0 && !alt_present then .vErr .noSubjectIdentity
  else if CNs.length > 0 then
    match csr_require_cn csr with
    | .error e => .vErr e
    | .ok cn =>
      match parseIPv4 cn with
      | some ip =>
        if !check_networks ip allowed_networks then .vErr (.networkNotAllowed cn)
        else .ok
      | none =>
        if !check_domains cn allowed_domains then .vErr (.domainNotAllowed cn)
        else .ok
  else .ok

/-- The loop body of `alternative_names`: raise at the first DNS entry not
matching the allowed domains. -/
def altNamesLoop (allowed_domains : List String) : List SanEntry → Outcome
  | [] => .ok
  | e :: rest =>
    if !check_domains e.2 allowed_domains then .vErr (.domainNotAllowed e.2)
    else altNamesLoop allowed_domains rest

/-- The `alternative_names` validator. -/
def alternative_names (csr : CSR) (allowed_domains : List String := []) : Outcome :=
  altNamesLoop allowed_domains (iter_alternative_names csr ["DNS"])

/-- The `server_group` validator; `auth_groups` is `auth_result.groups`,
`group_prefixes` the configured mapping as an association list. -/
def server_group (auth_groups : List String) (csr : CSR)
    (group_prefixes : List (String × String) := []) : Outcome :=
  match csr_require_cn csr with
  | .error e => .vErr e
  | .ok cn =>
    let parts := strSplit cn '-'
    if parts.length == 1 || (parts.headD "").data.contains '.' then .ok
    else
      match group_prefixes.lookup (parts.headD "") with
      | some g => if !auth_groups.contains g then .vErr .groupMismatch else .ok
      | none => .ok

/-- The extension loop of `key_usage`, accumulating the denied set:
`denied = denied | (usages - allowed)` for every KeyUsage extension. -/
def kuDeniedLoop (allowed : List String) : List Ext → List String → List String
  | [], denied => denied
  | e :: rest, denied =>
    match e with
    | .keyUsage usages =>
      kuDeniedLoop allowed rest (denied ∪ usages.filter (fun u => !allowed.contains u))
    | _ => kuDeniedLoop allowed rest denied

/-- The `key_usage` validator; `none` for `allowed_usage` is the Python
default `None`, on which `set(... for x in allowed_usage)` raises an
uncaught `TypeError`. -/
def key_usage (csr : CSR) (allowed_usage : Option (List String) := none) : Outcome :=
  match allowed_usage with
  | none => .crash "TypeError: NoneType object is not iterable"
  | some au =>
    let allowed := au.map normalizeKU
    let denied := kuDeniedLoop allowed csr.exts []
    if denied.isEmpty then .ok else .vErr (.keyUsageNotAllowed denied)

/-- A value of the `allowed_usage` list of `ext_key_usage`: initially
strings, rewritten in place to OIDs by the normalization loop. -/
inductive EKUVal where
  | str (s : String)
  | oid (o : OID)
deriving DecidableEq, Repr

/-- One step of `ext_key_usage`'s name normalization: long name, then
short name, then literal OID syntax; anything else raises `UnknownUsage`.
An entry already rewritten to an OID passes the `ObjectIdentifier`
constructor unchanged. -/
def normEKU : EKUVal → Except VErr EKUVal
  | .str s =>
    match EXT_KEY_USAGE_NAMES_INV.lookup s with
    | some o => .ok (.oid o)
    | none =>
      match EXT_KEY_USAGE_SHORT_NAMES_INV.lookup s with
      | some o => .ok (.oid o)
      | none =>
        match parseOID s with
        | some o => .ok (.oid o)
        | none => .error (.unknownUsage s)
  | .oid o => .ok (.oid o)

/-- The in-place normalization loop of `ext_key_usage`: returns the list as
left in memory (entries before a failure rewritten, the rest untouched)
and the error, if any. -/
def normalizeEKUList : List EKUVal → List EKUVal × Option VErr
  | [] => ([], none)
  | v :: vs =>
    match normEKU v with
    | .error e => (v :: vs, some e)
    | .ok v2 =>
      match normalizeEKUList vs with
      | (rest, err) => (v2 :: rest, err)

/-- The extension loop of `ext_key_usage`, accumulating denied OIDs over
every ExtendedKeyUsage extension. -/
def ekuDeniedLoop (allowed : List EKUVal) : List Ext → List OID → List OID
  | [], denied => denied
  | e :: rest, denied =>
    match e with
    | .extendedKeyUsage usages =>
      ekuDeniedLoop allowed rest
        (denied ∪ usages.filter (fun u => !allowed.contains (.oid u)))
    | _ => ekuDeniedLoop allowed rest denied

/-- The `ext_key_usage` validator, returning the `allowed_usage` list as
left after the call (it is mutated in place) together with the outcome.
`none` is the Python default `None`, on which `enumerate(allowed_usage)`
raises an uncaught `TypeError`.  Rendering a denied OID with no short name
makes `', '.join` raise an uncaught `TypeError`. -/
def ext_key_usage (csr : CSR) (allowed_usage : Option (List EKUVal) := none) :
    Option (List EKUVal) × Outcome :=
  match allowed_usage with
  | none => (none, .crash "TypeError: NoneType object is not iterable")
  | some au =>
    match normalizeEKUList au with
    | (au2, some e) => (some au2, .vErr e)
    | (au2, none) =>
      let denied := ekuDeniedLoop au2 csr.exts []
      if denied.isEmpty then (some au2, .ok)
      else
        match denied.mapM (fun o => EXT_KEY_USAGE_SHORT_NAMES.lookup o) with
        | some names => (some au2, .vErr (.extKeyUsageNotAllowed names))
        | none => (some au2, .crash "TypeError: sequence item: expected str instance, NoneType found")

/-- The extension loop of `ca_status`: raise at the first CA-indicating
extension when `ca_requested` is false, otherwise record that one was
seen (`request_ca_flags`). -/
def caStatusLoop (ca_requested : Bool) : List Ext → Bool → Except VErr Bool
  | [], flags => .ok flags
  | e :: rest, flags =>
    match e with
    | .basicConstraints ca =>
      if ca then
        if !ca_requested then .error .caNotAllowed
        else caStatusLoop ca_requested rest true
      else caStatusLoop ca_requested rest flags
    | .keyUsage usages =>
      let hasCertSign := usages.contains "keyCertSign"
      let hasCrlSign := usages.contains "cRLSign"
      if hasCrlSign || hasCertSign then
        if !ca_requested then .error (.keyUsageCAMismatch hasCertSign hasCrlSign)
        else caStatusLoop ca_requested rest true
      else caStatusLoop ca_requested rest flags
    | _ => caStatusLoop ca_requested rest flags

/-- The `ca_status` validator. -/
def ca_status (csr : CSR) (ca_requested : Bool := false) : Outcome :=
  match caStatusLoop ca_requested csr.exts false with
  | .error e => .vErr e
  | .ok flags =>
    if ca_requested && !flags then .vErr .caFlagsRequired else .ok

/-- The CIDR loop of `source_cidrs`: return at the first CIDR containing
the client address, raise `InvalidCIDRConfig` at the first unparseable
CIDR string, `SourceNotAllowed` after exhausting the list. -/
def sourceCidrsLoop (client_addr : Nat) : List String → Outcome
  | [] => .vErr .sourceNotAllowed
  | c :: rest =>
    match parseCIDR c with
    | some n =>
      if n.containsAddr client_addr then .ok
      else sourceCidrsLoop client_addr rest
    | none => .vErr (.invalidCIDRConfig c)

/-- The `source_cidrs` validator; `client_addr` is
`request.client_addr`. -/
def source_cidrs (client_addr : Nat) (cidrs : Option (List String) := none) : Outcome :=
  match cidrs with
  | none => .crash "TypeError: NoneType object is not iterable"
  | some cs => sourceCidrsLoop client_addr cs

/-! ## Characterization definitions used by the theorem statements -/

/-- All key-usage flags of all KeyUsage extensions in the list, in order. -/
def kuFlagsOf : List Ext → List String
  | [] => []
  | .keyUsage us :: rest => us ++ kuFlagsOf rest
  | _ :: rest => kuFlagsOf rest

/-- All key-usage flags of all KeyUsage extensions of the CSR, in order. -/
def kuFlags (csr : CSR) : List String :=
  kuFlagsOf csr.exts

/-- A CA-indicating signal carried by one extension: a BasicConstraints
with the CA bit, or a KeyUsage with keyCertSign/cRLSign. -/
inductive CASignal where
  | bcCA
  | kuCA (certSign crlSign : Bool)
deriving DecidableEq, Repr

/-- The CA-indicating signal of a single extension, if any. -/
def extCASignal : Ext → Option CASignal
  | .basicConstraints ca => if ca then some .bcCA else none
  | .keyUsage us =>
    if us.contains "cRLSign" || us.contains "keyCertSign" then
      some (.kuCA (us.contains "keyCertSign") (us.contains "cRLSign"))
    else none
  | _ => none

/-- The first CA-indicating signal in extension order
(follows the amended claim for `ca_status`, to be compared with the
source-derived `ca_status`). -/
def firstCASignal (exts : List Ext) : Option CASignal :=
  exts.findSome? extCASignal

/-- The CIDR string parses and its network contains the address. -/
def cidrMatch (addr : Nat) (c : String) : Bool :=
  match parseCIDR c with
  | some n => n.containsAddr addr
  | none => false

/-- The CIDR string parses and its network does not contain the address. -/
def cidrNoMatch (addr : Nat) (c : String) : Bool :=
  match parseCIDR c with
  | some n => !n.containsAddr addr
  | none => false

/-! ## Lemmas -/

theorem strData_mk (l : List Char) : (⟨l⟩ : String).data = l := rfl

theorem chSplit_ne_nil (sep : Char) (l : List Char) : chSplit sep l ≠ [] := by
  induction l with
  | nil => simp [chSplit]
  | cons c cs ih =>
    simp only [chSplit]
    by_cases h : c = sep
    · simp [h]
    · simp only [if_neg h]
      cases hs : chSplit sep cs with
      | nil => simp
      | cons g gs => simp

theorem chSplit_length_one (sep : Char) (l : List Char) :
    (chSplit sep l).length = 1 ↔ l.contains sep = false := by
  induction l with
  | nil => simp [chSplit]
  | cons c cs ih =>
    simp only [chSplit]
    by_cases h : c = sep
    · simp only [if_pos h, List.length_cons]
      constructor
      · intro hlen
        exact absurd (List.length_eq_zero.mp (by omega)) (chSplit_ne_nil sep cs)
      · intro hc
        simp [List.contains_cons, h] at hc
    · simp only [if_neg h]
      cases hs : chSplit sep cs with
      | nil => exact absurd hs (chSplit_ne_nil sep cs)
      | cons g gs =>
        simp only [List.length_cons, List.contains_cons]
        rw [hs] at ih
        simp only [List.length_cons] at ih
        constructor
        · intro hlen
          have hcs := ih.mp (by omega)
          simp only [Bool.or_eq_false_iff]
          exact ⟨beq_false_of_ne (Ne.symm h), hcs⟩
        · intro hc
          simp only [Bool.or_eq_false_iff] at hc
          have := ih.mpr hc.2
          omega

theorem chSplit_headD (sep : Char) (l : List Char) :
    (chSplit sep l).headD [] = l.takeWhile (fun c => !(c == sep)) := by
  induction l with
  | nil => simp [chSplit]
  | cons c cs ih =>
    simp only [chSplit, List.takeWhile]
    by_cases h : c = sep
    · simp [h]
    · simp only [if_neg h, beq_false_of_ne h, Bool.not_false]
      cases hs : chSplit sep cs with
      | nil => exact absurd hs (chSplit_ne_nil sep cs)
      | cons g gs =>
        rw [hs] at ih
        simp only [List.headD_cons] at ih
        simp [ih]

theorem strSplit_length_one (s : String) (sep : Char) :
    (strSplit s sep).length = 1 ↔ s.data.contains sep = false := by
  rw [strSplit, List.length_map]
  exact chSplit_length_one sep s.data

theorem strSplit_headD (s : String) (sep : Char) :
    (strSplit s sep).headD "" = ⟨s.data.takeWhile (fun c => !(c == sep))⟩ := by
  rw [strSplit]
  cases hs : chSplit sep s.data with
  | nil => exact absurd hs (chSplit_ne_nil sep s.data)
  | cons g gs =>
    have := chSplit_headD sep s.data
    rw [hs] at this
    simp only [List.headD_cons] at this
    simp [this]

/-! ## Claim theorems -/

/-- C1: for a CSR with exactly one CommonName entry, `common_name`
classifies IP-first: a CN that parses as an address is checked only
against `allowed_networks` (failing with NetworkNotAllowed when no network
contains it) and is never domain-checked; a CN that does not parse is
checked only against `allowed_domains` via DomainMatch (failing with
DomainNotAllowed when no suffix matches). -/
theorem common_name_single_cn_classification (cn : String) (exts : List Ext)
    (allowed_domains allowed_networks : List String) :
    common_name ⟨[cn], exts⟩ allowed_domains allowed_networks =
      match parseIPv4 cn with
      | some ip =>
        if check_networks ip allowed_networks then .ok
        else .vErr (.networkNotAllowed cn)
      | none =>
        if check_domains cn allowed_domains then .ok
        else .vErr (.domainNotAllowed cn) := by
  simp only [common_name, csr_require_cn, List.length_cons, List.length_nil]
  norm_num
  cases h : parseIPv4 cn with
  | some ip => cases hn : check_networks ip allowed_networks <;> simp [hn]
  | none => cases hd : check_domains cn allowed_domains <;> simp [hd]

/-- C2: `common_name` fails with TooManyCN for every CSR with more than one
CommonName entry regardless of values and extensions, fails with
NoSubjectIdentity for zero CNs and no subjectAltName extension, and passes
for zero CNs when a subjectAltName extension is present. -/
theorem common_name_cn_count (csr : CSR) (allowed_domains allowed_networks : List String) :
    (csr.cns.length > 1 →
      common_name csr allowed_domains allowed_networks = .vErr .tooManyCN) ∧
    (csr.cns = [] → (¬ ∃ e ∈ csr.exts, e.getName = "subjectAltName") →
      common_name csr allowed_domains allowed_networks = .vErr .noSubjectIdentity) ∧
    (csr.cns = [] → (∃ e ∈ csr.exts, e.getName = "subjectAltName") →
      common_name csr allowed_domains allowed_networks = .ok) := by
  refine ⟨?_, ?_, ?_⟩
  · intro h
    simp [common_name, h]
  · intro h0 hne
    have halt : csr.exts.any (fun e => e.getName == "subjectAltName") = false := by
      rw [List.any_eq_false]
      intro e he
      simp only [beq_iff_eq]
      exact fun hn => hne ⟨e, he, hn⟩
    simp [common_name, h0, halt]
  · intro h0 hex
    have halt : csr.exts.any (fun e => e.getName == "subjectAltName") = true := by
      rw [List.any_eq_true]
      obtain ⟨e, he, hn⟩ := hex
      exact ⟨e, he, by simp [hn]⟩
    simp [common_name, h0, halt]

/-- C2 witness: a CSR with two CommonName entries fails with TooManyCN. -/
theorem common_name_cn_count_witness :
    common_name ⟨["a", "b"], []⟩ [] [] = .vErr .tooManyCN :=
  (common_name_cn_count ⟨["a", "b"], []⟩ [] []).1 (by decide)

theorem altNamesLoop_eq_find (allowed : List String) (l : List SanEntry) :
    altNamesLoop allowed l =
      match l.find? (fun e => !check_domains e.2 allowed) with
      | some e => .vErr (.domainNotAllowed e.2)
      | none => .ok := by
  induction l with
  | nil => rfl
  | cons e rest ih =>
    simp only [altNamesLoop, List.find?]
    cases h : check_domains e.2 allowed <;> simp [h, ih]

/-- C3: `alternative_names` checks exactly the DNS-type subjectAltName
entries against `allowed_domains` via DomainMatch, failing with
DomainNotAllowed at the first non-matching one; entries of every other SAN
type are dropped by the filter and can never cause a failure. -/
theorem alternative_names_dns_spec (csr : CSR) (allowed_domains : List String) :
    alternative_names csr allowed_domains =
      match ((sanEntries csr).filter (fun e => e.1 == "DNS")).find?
          (fun e => !check_domains e.2 allowed_domains) with
      | some e => .vErr (.domainNotAllowed e.2)
      | none => .ok := by
  rw [alternative_names, altNamesLoop_eq_find]
  have hiter : iter_alternative_names csr ["DNS"] =
      (sanEntries csr).filter (fun e => e.1 == "DNS") := by
    rw [iter_alternative_names]
    congr 1
    funext e
    simp only [List.contains_cons, List.contains_nil, Bool.or_false]
  rw [hiter]

theorem firstCASignal_cons (e : Ext) (rest : List Ext) :
    firstCASignal (e :: rest) =
      match extCASignal e with
      | some s => some s
      | none => firstCASignal rest := by
  rw [firstCASignal, List.findSome?_cons]
  cases extCASignal e <;> rfl

theorem caStatusLoop_false (exts : List Ext) (flags : Bool) :
    caStatusLoop false exts flags =
      match firstCASignal exts with
      | none => .ok flags
      | some .bcCA => .error .caNotAllowed
      | some (.kuCA c r) => .error (.keyUsageCAMismatch c r) := by
  induction exts generalizing flags with
  | nil => rfl
  | cons e rest ih =>
    rw [firstCASignal_cons]
    cases e with
    | basicConstraints ca =>
      cases ca <;> simp [caStatusLoop, extCASignal, ih]
    | keyUsage us =>
      simp only [caStatusLoop, extCASignal]
      cases h : (us.contains "cRLSign" || us.contains "keyCertSign") <;> simp [h, ih]
    | subjectAltName es => simp [caStatusLoop, extCASignal, ih]
    | extendedKeyUsage us => simp [caStatusLoop, extCASignal, ih]
    | other n o => simp [caStatusLoop, extCASignal, ih]

theorem caStatusLoop_true (exts : List Ext) (flags : Bool) :
    caStatusLoop true exts flags = .ok (flags || (firstCASignal exts).isSome) := by
  induction exts generalizing flags with
  | nil => simp [caStatusLoop, firstCASignal]
  | cons e rest ih =>
    rw [firstCASignal_cons]
    cases e with
    | basicConstraints ca =>
      cases ca <;> simp [caStatusLoop, extCASignal, ih]
    | keyUsage us =>
      simp only [caStatusLoop, extCASignal]
      cases h : (us.contains "cRLSign" || us.contains "keyCertSign") <;> simp [h, ih]
    | subjectAltName es => simp [caStatusLoop, extCASignal, ih]
    | extendedKeyUsage us => simp [caStatusLoop, extCASignal, ih]
    | other n o => simp [caStatusLoop, extCASignal, ih]

/-- C4 counterexample: with `ca_requested = false`, a CSR carrying a
BasicConstraints extension with the CA bit set does not fail with
CANotAllowed when a CA-indicating KeyUsage extension precedes it: the
error raised is KeyUsageCAMismatch. -/
theorem ca_status_claim_counterexample :
    ca_status ⟨[], [.keyUsage ["keyCertSign"], .basicConstraints true]⟩ false =
      .vErr (.keyUsageCAMismatch true false) ∧
    Ext.basicConstraints true ∈
      (CSR.mk [] [.keyUsage ["keyCertSign"], .basicConstraints true]).exts ∧
    ca_status ⟨[], [.keyUsage ["keyCertSign"], .basicConstraints true]⟩ false ≠
      .vErr .caNotAllowed := by decide

/-- C4 amended: `ca_status` reports, when `ca_requested` is false, the
error of the FIRST CA-indicating extension in extension order —
CANotAllowed for a BasicConstraints with the CA bit, KeyUsageCAMismatch
(with the keyCertSign/cRLSign values) for a KeyUsage carrying keyCertSign
or cRLSign — and accepts when there is none; when `ca_requested` is true
it fails with CAFlagsRequired exactly when no CA-indicating extension is
present, and accepts otherwise. -/
theorem ca_status_amended (csr : CSR) (ca_requested : Bool) :
    ca_status csr ca_requested =
      if ca_requested then
        if (firstCASignal csr.exts).isSome then .ok else .vErr .caFlagsRequired
      else
        match firstCASignal csr.exts with
        | none => .ok
        | some .bcCA => .vErr .caNotAllowed
        | some (.kuCA c r) => .vErr (.keyUsageCAMismatch c r) := by
  cases ca_requested with
  | false =>
    rw [ca_status, caStatusLoop_false]
    cases h : firstCASignal csr.exts with
    | none => simp
    | some s => cases s <;> simp
  | true =>
    rw [ca_status, caStatusLoop_true]
    cases h : (firstCASignal csr.exts).isSome <;> simp [h]

theorem kuDeniedLoop_mem (allowed : List String) (exts : List Ext)
    (denied : List String) (u : String) :
    u ∈ kuDeniedLoop allowed exts denied ↔
      u ∈ denied ∨ (u ∈ kuFlagsOf exts ∧ u ∉ allowed) := by
  induction exts generalizing denied with
  | nil => simp [kuDeniedLoop, kuFlagsOf]
  | cons e rest ih =>
    cases e with
    | keyUsage us =>
      simp only [kuDeniedLoop, kuFlagsOf, ih, List.mem_union_iff, List.mem_filter,
        List.mem_append, Bool.not_eq_true', List.contains, List.elem_eq_mem,
        decide_eq_false_iff_not]
      tauto
    | subjectAltName es => simp [kuDeniedLoop, kuFlagsOf, ih]
    | basicConstraints ca => simp [kuDeniedLoop, kuFlagsOf, ih]
    | extendedKeyUsage us => simp [kuDeniedLoop, kuFlagsOf, ih]
    | other n o => simp [kuDeniedLoop, kuFlagsOf, ih]

theorem key_usage_eq (csr : CSR) (au : List String) :
    key_usage csr (some au) =
      if (kuDeniedLoop (au.map normalizeKU) csr.exts []).isEmpty then .ok
      else .vErr (.keyUsageNotAllowed (kuDeniedLoop (au.map normalizeKU) csr.exts [])) := rfl

/-- C5: `key_usage` accepts iff every flag of every KeyUsage extension is
in the normalized allowed set; otherwise, after scanning all extensions,
it fails with KeyUsageNotAllowed whose denied set contains exactly the
flags of some KeyUsage extension that are outside the allowed set
(accumulated across all KeyUsage extensions); no other outcome occurs. -/
theorem key_usage_spec (csr : CSR) (au : List String) :
    (key_usage csr (some au) = .ok ↔
      ∀ u ∈ kuFlags csr, u ∈ au.map normalizeKU) ∧
    (∀ d, key_usage csr (some au) = .vErr (.keyUsageNotAllowed d) →
      ∀ u, u ∈ d ↔ (u ∈ kuFlags csr ∧ u ∉ au.map normalizeKU)) ∧
    (key_usage csr (some au) = .ok ∨
      ∃ d, key_usage csr (some au) = .vErr (.keyUsageNotAllowed d)) := by
  have hmem : ∀ u, u ∈ kuDeniedLoop (au.map normalizeKU) csr.exts [] ↔
      (u ∈ kuFlags csr ∧ u ∉ au.map normalizeKU) := by
    intro u
    have h := kuDeniedLoop_mem (au.map normalizeKU) csr.exts [] u
    simpa [kuFlags] using h
  rw [key_usage_eq]
  cases hden : kuDeniedLoop (au.map normalizeKU) csr.exts [] with
  | nil =>
    rw [hden] at hmem
    refine ⟨?_, ?_, Or.inl (by simp)⟩
    · constructor
      · intro _ u hu
        by_contra hno
        have := (hmem u).mpr ⟨hu, hno⟩
        exact absurd this (List.not_mem_nil u)
      · intro _
        simp
    · intro d hd
      simp at hd
  | cons u0 us =>
    rw [hden] at hmem
    refine ⟨?_, ?_, Or.inr ⟨u0 :: us, by simp⟩⟩
    · constructor
      · intro h
        simp at h
      · intro hall
        exfalso
        obtain ⟨hfl, hna⟩ := (hmem u0).mp (List.mem_cons_self u0 us)
        exact hna (hall u0 hfl)
    · intro d hd
      have hd2 : u0 :: us = d := by simpa using hd
      intro u
      rw [← hd2]
      exact hmem u

/-- C5 witness: with allowedUsage `["digitalSignature"]` and a KeyUsage
extension carrying digitalSignature and keyEncipherment, the denied set
named by the failure contains keyEncipherment because it is a flag not in
the allowed set. -/
theorem key_usage_spec_witness :
    "keyEncipherment" ∈ (["keyEncipherment"] : List String) ↔
      ("keyEncipherment" ∈
          kuFlags ⟨[], [Ext.keyUsage ["digitalSignature", "keyEncipherment"]]⟩ ∧
        "keyEncipherment" ∉ (["digitalSignature"] : List String).map normalizeKU) :=
  (key_usage_spec ⟨[], [Ext.keyUsage ["digitalSignature", "keyEncipherment"]]⟩
    ["digitalSignature"]).2.1 ["keyEncipherment"] (by decide) "keyEncipherment"

/-- C8 counterexample: invoking `key_usage` with the configuration omitted
(Python default `allowed_usage=None`) on a CSR with no KeyUsage extension
does not accept: iterating `None` raises an uncaught TypeError, not a
ValidationError. -/
theorem key_usage_omitted_counterexample :
    key_usage ⟨[], []⟩ none = .crash "TypeError: NoneType object is not iterable" ∧
    key_usage ⟨[], []⟩ none ≠ .ok := by decide

/-- C8 amended: invoking `key_usage` with the configuration omitted raises
an uncaught TypeError for every CSR (the default is `None`, which the
normalization then iterates); invoked explicitly with `allowedUsage = []`
it accepts exactly the CSRs with no KeyUsage flag and otherwise fails with
KeyUsageNotAllowed naming all the flags present. -/
theorem key_usage_omitted_amended (csr : CSR) :
    key_usage csr none = .crash "TypeError: NoneType object is not iterable" ∧
    (key_usage csr (some []) = .ok ↔ kuFlags csr = []) ∧
    (∀ d, key_usage csr (some []) = .vErr (.keyUsageNotAllowed d) →
      ∀ u, u ∈ d ↔ u ∈ kuFlags csr) := by
  have hmem : ∀ u, u ∈ kuDeniedLoop ([] : List String) csr.exts [] ↔ u ∈ kuFlags csr := by
    intro u
    have h := kuDeniedLoop_mem [] csr.exts [] u
    simpa [kuFlags] using h
  refine ⟨rfl, ?_, ?_⟩
  · rw [key_usage_eq]
    simp only [List.map_nil]
    cases hden : kuDeniedLoop ([] : List String) csr.exts [] with
    | nil =>
      rw [hden] at hmem
      constructor
      · intro _
        cases hf : kuFlags csr with
        | nil => rfl
        | cons u us =>
          have : u ∈ ([] : List String) :=
            (hmem u).mpr (by rw [hf]; exact List.mem_cons_self u us)
          exact absurd this (List.not_mem_nil u)
      · intro _
        simp
    | cons u0 us =>
      rw [hden] at hmem
      constructor
      · intro h
        simp at h
      · intro hf
        exfalso
        have := (hmem u0).mp (List.mem_cons_self u0 us)
        rw [hf] at this
        exact absurd this (List.not_mem_nil u0)
  · intro d hd
    rw [key_usage_eq] at hd
    simp only [List.map_nil] at hd
    cases hden : kuDeniedLoop ([] : List String) csr.exts [] with
    | nil =>
      rw [hden] at hd
      simp at hd
    | cons u0 us =>
      rw [hden] at hd hmem
      have hd2 : u0 :: us = d := by simpa using hd
      intro u
      rw [← hd2]
      exact hmem u

/-- C8 amended witness: a CSR whose KeyUsage extension carries
digitalSignature, checked with `allowedUsage = []`, names digitalSignature
among the denied flags. -/
theorem key_usage_omitted_amended_witness :
    "digitalSignature" ∈ (["digitalSignature"] : List String) ↔
      "digitalSignature" ∈ kuFlags ⟨[], [Ext.keyUsage ["digitalSignature"]]⟩ :=
  (key_usage_omitted_amended ⟨[], [Ext.keyUsage ["digitalSignature"]]⟩).2.2
    ["digitalSignature"] (by decide) "digitalSignature"

theorem sourceCidrsLoop_skip (addr : Nat) (c : String) (rest : List String)
    (h : cidrNoMatch addr c = true) :
    sourceCidrsLoop addr (c :: rest) = sourceCidrsLoop addr rest := by
  rw [cidrNoMatch] at h
  simp only [sourceCidrsLoop]
  cases hp : parseCIDR c with
  | none => rw [hp] at h; simp at h
  | some n =>
    rw [hp] at h
    simp only [Bool.not_eq_true'] at h
    simp [h]

theorem sourceCidrsLoop_append (addr : Nat) (front rest : List String)
    (h : ∀ c ∈ front, cidrNoMatch addr c = true) :
    sourceCidrsLoop addr (front ++ rest) = sourceCidrsLoop addr rest := by
  induction front with
  | nil => rfl
  | cons c f ih =>
    rw [List.cons_append,
      sourceCidrsLoop_skip addr c (f ++ rest) (h c (List.mem_cons_self c f))]
    exact ih (fun c2 h2 => h c2 (List.mem_cons_of_mem _ h2))

/-- C6: `source_cidrs` walks the configured CIDR list in order: it accepts
at the first CIDR containing the client address (entries before it all
valid and non-matching), fails with SourceNotAllowed when the whole list
is valid and non-matching, and fails with InvalidCIDRConfig at the first
unparseable CIDR string reached before any match — even when a later
valid CIDR would have matched the address. -/
theorem source_cidrs_spec (addr : Nat) (cs front back : List String) (c : String) :
    ((∀ c2 ∈ cs, cidrNoMatch addr c2 = true) →
      source_cidrs addr (some cs) = .vErr .sourceNotAllowed) ∧
    (cs = front ++ c :: back → (∀ c2 ∈ front, cidrNoMatch addr c2 = true) →
      cidrMatch addr c = true →
      source_cidrs addr (some cs) = .ok) ∧
    (cs = front ++ c :: back → (∀ c2 ∈ front, cidrNoMatch addr c2 = true) →
      parseCIDR c = none →
      source_cidrs addr (some cs) = .vErr (.invalidCIDRConfig c)) := by
  refine ⟨?_, ?_, ?_⟩
  · intro h
    show sourceCidrsLoop addr cs = .vErr .sourceNotAllowed
    induction cs with
    | nil => rfl
    | cons c2 rest ih =>
      rw [sourceCidrsLoop_skip addr c2 rest (h c2 (List.mem_cons_self c2 rest))]
      exact ih (fun c3 h3 => h c3 (List.mem_cons_of_mem _ h3))
  · rintro rfl hfront hc
    show sourceCidrsLoop addr (front ++ c :: back) = .ok
    rw [sourceCidrsLoop_append addr front _ hfront]
    rw [cidrMatch] at hc
    simp only [sourceCidrsLoop]
    cases hp : parseCIDR c with
    | none => rw [hp] at hc; simp at hc
    | some n =>
      rw [hp] at hc
      have hc2 : n.containsAddr addr = true := hc
      simp [hc2]
  · rintro rfl hfront hp
    show sourceCidrsLoop addr (front ++ c :: back) = .vErr (.invalidCIDRConfig c)
    rw [sourceCidrsLoop_append addr front _ hfront]
    simp [sourceCidrsLoop, hp]

/-- C6 witness: client address 192.168.1.5 against
`["10.0.0.0/24", "not-a-cidr", "192.168.1.0/24"]`: the invalid second
entry is reached before any match and fails the validation with
InvalidCIDRConfig, even though the third entry would have matched. -/
theorem source_cidrs_spec_witness :
    source_cidrs 3232235781 (some ["10.0.0.0/24", "not-a-cidr", "192.168.1.0/24"]) =
      .vErr (.invalidCIDRConfig "not-a-cidr") :=
  (source_cidrs_spec 3232235781 ["10.0.0.0/24", "not-a-cidr", "192.168.1.0/24"]
    ["10.0.0.0/24"] ["192.168.1.0/24"] "not-a-cidr").2.2 rfl (by decide) (by decide)

/-- C7: `server_group` on a CSR with single CN: it is a no-op when the CN
contains no `-`, when the candidate team prefix (the part before the first
`-`) contains a `.`, or when that candidate is not a key of
`group_prefixes`; and when the CN contains a `-` and the candidate
contains no `.`, it fails with GroupMismatch exactly when the candidate is
a key of `group_prefixes` whose mapped group is not among the requester's
groups. -/
theorem server_group_spec (auth_groups : List String) (cn : String) (exts : List Ext)
    (gp : List (String × String)) :
    (cn.data.contains '-' = false →
      server_group auth_groups ⟨[cn], exts⟩ gp = .ok) ∧
    ((cn.data.takeWhile (fun ch => !(ch == '-'))).contains '.' = true →
      server_group auth_groups ⟨[cn], exts⟩ gp = .ok) ∧
    (gp.lookup (⟨cn.data.takeWhile (fun ch => !(ch == '-'))⟩ : String) = none →
      server_group auth_groups ⟨[cn], exts⟩ gp = .ok) ∧
    (cn.data.contains '-' = true →
      (cn.data.takeWhile (fun ch => !(ch == '-'))).contains '.' = false →
      (server_group auth_groups ⟨[cn], exts⟩ gp = .vErr .groupMismatch ↔
        ∃ g, gp.lookup (⟨cn.data.takeWhile (fun ch => !(ch == '-'))⟩ : String) = some g ∧
          g ∉ auth_groups)) := by
  have hsg : server_group auth_groups ⟨[cn], exts⟩ gp =
      (if (strSplit cn '-').length == 1 ||
          ((strSplit cn '-').headD "").data.contains '.' then .ok
       else
        match gp.lookup ((strSplit cn '-').headD "") with
        | some g => if !auth_groups.contains g then .vErr .groupMismatch else .ok
        | none => .ok) := rfl
  rw [strSplit_headD] at hsg
  simp only [strData_mk] at hsg
  refine ⟨?_, ?_, ?_, ?_⟩
  · intro h
    have hlen : (strSplit cn '-').length = 1 := (strSplit_length_one cn '-').mpr h
    rw [hsg]
    simp [hlen]
  · intro h
    rw [hsg, h]
    cases hlen : (strSplit cn '-').length == 1 with
    | true => simp
    | false => simp
  · intro h
    rw [hsg, h]
    cases hcond : ((strSplit cn '-').length == 1 ||
        (cn.data.takeWhile (fun ch => !(ch == '-'))).contains '.') with
    | true => simp
    | false => simp
  · intro hdash hdot
    have hlenb : ((strSplit cn '-').length == 1) = false := by
      apply beq_eq_false_iff_ne.mpr
      intro hl
      have hfalse := (strSplit_length_one cn '-').mp hl
      rw [hdash] at hfalse
      simp at hfalse
    rw [hsg, hlenb, hdot]
    simp only [Bool.or_self, Bool.false_eq_true, if_false]
    cases hlook : gp.lookup (⟨cn.data.takeWhile (fun ch => !(ch == '-'))⟩ : String) with
    | none =>
      simp only []
      constructor
      · intro h
        simp at h
      · rintro ⟨g, hg, _⟩
        cases hg
    | some g =>
      simp only []
      cases hg : auth_groups.contains g with
      | true =>
        have hmemg : g ∈ auth_groups := by
          simpa [List.contains, List.elem_eq_mem] using hg
        simp only [hg, Bool.not_true, Bool.false_eq_true, if_false]
        constructor
        · intro h
          simp at h
        · rintro ⟨g2, hg2, hnot⟩
          cases hg2
          exact absurd hmemg hnot
      | false =>
        have hnotg : g ∉ auth_groups := by
          simpa [List.contains, List.elem_eq_mem] using hg
        simp only [hg, Bool.not_false, if_true]
        constructor
        · intro _
          exact ⟨g, rfl, hnotg⟩
        · intro _
          trivial

/-- C7 witness: CN `"teamA-host1"` with `group_prefixes = {"teamA":
"group-a"}` and requester groups `["group-b"]` fails with GroupMismatch. -/
theorem server_group_spec_witness :
    server_group ["group-b"] ⟨["teamA-host1"], []⟩ [("teamA", "group-a")] =
      .vErr .groupMismatch :=
  ((server_group_spec ["group-b"] "teamA-host1" [] [("teamA", "group-a")]).2.2.2
    (by decide) (by decide)).mpr ⟨"group-a", by decide, by decide⟩

theorem normEKU_ok_oid (v w : EKUVal) (h : normEKU v = .ok w) : ∃ o, w = .oid o := by
  cases v with
  | oid o =>
    simp only [normEKU, Except.ok.injEq] at h
    exact ⟨o, h.symm⟩
  | str s =>
    simp only [normEKU] at h
    split at h
    · simp only [Except.ok.injEq] at h
      exact ⟨_, h.symm⟩
    · split at h
      · simp only [Except.ok.injEq] at h
        exact ⟨_, h.symm⟩
      · split at h
        · simp only [Except.ok.injEq] at h
          exact ⟨_, h.symm⟩
        · simp at h

theorem normalizeEKUList_idem (l : List EKUVal) :
    normalizeEKUList (normalizeEKUList l).1 = normalizeEKUList l := by
  induction l with
  | nil => rfl
  | cons v vs ih =>
    simp only [normalizeEKUList]
    cases hv : normEKU v with
    | error e => simp [normalizeEKUList, hv]
    | ok v2 =>
      obtain ⟨o, rfl⟩ := normEKU_ok_oid v v2 hv
      cases hrest : normalizeEKUList vs with
      | mk rest err =>
        rw [hrest] at ih
        simp only [normalizeEKUList, normEKU]
        rw [ih]

theorem ext_key_usage_norm_err (csr : CSR) (l l2 : List EKUVal) (e : VErr)
    (h : normalizeEKUList l = (l2, some e)) :
    ext_key_usage csr (some l) = (some l2, .vErr e) := by
  simp only [ext_key_usage, h]

theorem ext_key_usage_norm_ok (csr : CSR) (l l2 : List EKUVal)
    (h : normalizeEKUList l = (l2, none)) :
    ext_key_usage csr (some l) =
      (some l2,
        if (ekuDeniedLoop l2 csr.exts []).isEmpty then .ok
        else
          match (ekuDeniedLoop l2 csr.exts []).mapM
              (fun o => EXT_KEY_USAGE_SHORT_NAMES.lookup o) with
          | some names => .vErr (.extKeyUsageNotAllowed names)
          | none =>
            .crash "TypeError: sequence item: expected str instance, NoneType found") := by
  simp only [ext_key_usage, h]
  cases hE : (ekuDeniedLoop l2 csr.exts []).isEmpty with
  | true => simp
  | false =>
    simp only [Bool.false_eq_true, if_false]
    cases hm : (ekuDeniedLoop l2 csr.exts []).mapM
        (fun o => EXT_KEY_USAGE_SHORT_NAMES.lookup o) with
    | none => rfl
    | some names => rfl

/-- C9: re-running a validator on the same CSR and the same configuration
value yields the same outcome; in particular `ext_key_usage`, the only
validator that mutates its configuration (its name-to-OID normalization
rewrites `allowed_usage` in place), returns on a second run — fed the
list as left in memory by the first — the same outcome and leaves the
list unchanged.  Every other validator of the embedding is a pure
function of (CSR, config) with no state threading, so a second run is the
identical application. -/
theorem ext_key_usage_idempotent (csr : CSR) (au : Option (List EKUVal)) :
    ext_key_usage csr ((ext_key_usage csr au).1) = ext_key_usage csr au := by
  cases au with
  | none => rfl
  | some l =>
    cases h : normalizeEKUList l with
    | mk l2 errOpt =>
      have hidem := normalizeEKUList_idem l
      rw [h] at hidem
      cases errOpt with
      | some e =>
        rw [ext_key_usage_norm_err csr l l2 e h]
        exact ext_key_usage_norm_err csr l2 l2 e hidem
      | none =>
        rw [ext_key_usage_norm_ok csr l l2 h]
        exact ext_key_usage_norm_ok csr l2 l2 hidem

/-- C10: `server_group` extracts the single CN before any prefix
inspection, so a CSR with zero CommonName entries fails with NoCN and one
with more than one CN fails with TooManyCN, for every `group_prefixes`
configuration (including the empty one); the no-op path is unreachable
for such CSRs. -/
theorem server_group_requires_single_cn (auth_groups : List String) (csr : CSR)
    (gp : List (String × String)) :
    (csr.cns = [] → server_group auth_groups csr gp = .vErr .noCN) ∧
    (csr.cns.length > 1 → server_group auth_groups csr gp = .vErr .tooManyCN) := by
  constructor
  · intro h
    rcases csr with ⟨cns, exts⟩
    simp only at h
    subst h
    rfl
  · intro h
    rcases csr with ⟨cns, exts⟩
    simp only [List.length_cons] at h
    match cns, h with
    | a :: b :: rest, _ => rfl

/-- C10 witness: a CSR with no CommonName entry fails with NoCN even with
an empty `group_prefixes`. -/
theorem server_group_requires_single_cn_witness :
    server_group [] ⟨[], []⟩ [] = .vErr .noCN :=
  (server_group_requires_single_cn [] ⟨[], []⟩ []).1 rfl

end Anchor
